import Mathlib

/-
Verification development for the xz gdk-pixbuf loader module
(src/xz-pixbuf-loader.c).

The module drives the external liblzma streaming decoder
(lzma_code / lzma_stream_decoder with LZMA_CONCATENATED) to turn
xz-compressed bytes into a growable sequence of decompressed segments
(a GMemoryInputStream), which is finally handed to the external image
decoder (gdk_pixbuf_new_from_stream).

Embedding choices:
- bytes are Nat, byte buffers are List Nat;
- the external decompressor is abstracted as an LzDecoder: a step
  function taking the decoder-internal state, the lzma_action, the
  remaining input bytes (next_in / avail_in) and the available output
  space (avail_out), and returning the new internal state, the
  unconsumed input, the bytes written to the output window, and the
  lzma_ret status the C code inspects;
- concatDecoder f is the concrete valid-stream instance of that
  interface: the plaintext of a consumed compressed prefix c is f c,
  output is produced greedily up to the available output space, and
  LZMA_STREAM_END is reported exactly when LZMA_FINISH was requested,
  all input is consumed and all output has been emitted (with
  LZMA_CONCATENATED, liblzma reports LZMA_STREAM_END only on finish);
- the scratch output window of the C code (next_out / avail_out over
  unxz_buffer) is modeled by outWritten (the bytes written since the
  last reset, i.e. the region between unxz_buffer and next_out) plus
  the avail_out counter kept exactly as the C code updates it;
- heap effects that the claims talk about (callback invocations,
  allocations, frees, stream close/unref) are recorded as an explicit
  event list;
- the C do-while loop is given explicit fuel; running out of fuel
  yields none, which no claim theorem relies on.
-/

/-- The subset of lzma_action values the loader uses: LZMA_RUN and
LZMA_FINISH. -/
inductive LzmaAction where
  | run
  | finish
  deriving DecidableEq, Repr

/-- The lzma_ret outcomes the loader distinguishes: LZMA_OK,
LZMA_STREAM_END, and any error code (collapsed into err). -/
inductive LzmaRet where
  | ok
  | streamEnd
  | err
  deriving DecidableEq, Repr

/-- A decoded image as the loader observes it: gdk_pixbuf_get_width and
gdk_pixbuf_get_height are its only accessors used. -/
structure Pixbuf where
  width : Nat
  height : Nat
  deriving DecidableEq, Repr

/-- Observable side effects of the loader: caller callbacks, resource
allocation and release, and GObject stream operations. -/
inductive Event where
  | prepared (w h : Nat)
  | updated (x y w h : Nat)
  | sizeKnown
  | newFromStream
  | closeIstream
  | unrefPixbuf
  | lzmaEnd
  | freeLzstream
  | freeUnxzBuffer
  | freeContext
  | allocLzstream
  | lzmaInitInternal
  | allocXzBuffer
  | allocUnxzBuffer
  | newIstream
  | allocSegment
  | freeXzBuffer
  | unrefIstream
  deriving DecidableEq, Repr

/-- Whether an event is an invocation of one of the caller-supplied
module callbacks (prepared / updated / size). -/
def isCallbackEvent : Event → Bool
  | Event.prepared _ _ => true
  | Event.updated _ _ _ _ => true
  | Event.sizeKnown => true
  | _ => false

/-- Result of one lzma_code call: new internal decoder state, the
unconsumed remainder of the input (next_in / avail_in on return), the
bytes written into the output window, and the returned status. -/
structure StepResult (σ : Type) where
  decState : σ
  nextIn : List Nat
  written : List Nat
  ret : LzmaRet
  deriving DecidableEq, Repr

/-- Abstract interface of the external streaming decompressor
(liblzma's lzma_code): from the internal state, the action, the input
bytes and the available output space, produce a StepResult. -/
structure LzDecoder (σ : Type) where
  step : σ → LzmaAction → List Nat → Nat → StepResult σ

/-- Internal state of the concrete valid-stream decoder model: the
compressed bytes consumed so far and the count of plaintext bytes
already emitted. -/
structure LzmaDecState where
  consumed : List Nat
  emitted : Nat
  deriving DecidableEq, Repr

/-- Plaintext bytes that are decodable from the consumed prefix but not
yet emitted to any output window. -/
def pendingOut (f : List Nat → List Nat) (s : LzmaDecState) : List Nat :=
  (f s.consumed).drop s.emitted

/-- Result of the concrete model's decode run: internal state,
unconsumed input, written bytes, and remaining output space. -/
structure LzRunResult where
  state : LzmaDecState
  rest : List Nat
  written : List Nat
  availOut : Nat
  deriving DecidableEq, Repr

/-- One lzma_code call in the concrete valid-stream model: repeatedly
flush pending plaintext into the output window and consume input one
byte at a time, stopping when the output window is full or the input is
exhausted (liblzma returns when avail_out or avail_in reaches 0). -/
def lzRun (f : List Nat → List Nat) (s : LzmaDecState) (inp : List Nat)
    (availOut : Nat) : LzRunResult :=
  let w := (pendingOut f s).take availOut
  let s1 : LzmaDecState := ⟨s.consumed, s.emitted + w.length⟩
  let a1 := availOut - w.length
  if a1 = 0 then ⟨s1, inp, w, 0⟩
  else
    match inp with
    | [] => ⟨s1, [], w, a1⟩
    | b :: rest =>
      let r := lzRun f ⟨s1.consumed ++ [b], s1.emitted⟩ rest a1
      ⟨r.state, r.rest, w ++ r.written, r.availOut⟩

/-- One lzma_code call of the concrete model together with its
lzma_ret: with LZMA_CONCATENATED, LZMA_STREAM_END is reported only for
LZMA_FINISH once all input is consumed and all output emitted;
otherwise the call reports LZMA_OK. -/
def concatStep (f : List Nat → List Nat) (s : LzmaDecState)
    (act : LzmaAction) (inp : List Nat) (availOut : Nat) :
    StepResult LzmaDecState :=
  let r := lzRun f s inp availOut
  let ret :=
    match act with
    | LzmaAction.run => LzmaRet.ok
    | LzmaAction.finish =>
      if r.rest = [] ∧ pendingOut f r.state = [] then LzmaRet.streamEnd
      else LzmaRet.ok
  ⟨r.state, r.rest, r.written, ret⟩

/-- The concrete valid-stream decoder: decompression function f, greedy
output, LZMA_CONCATENATED end-of-stream reporting. -/
def concatDecoder (f : List Nat → List Nat) : LzDecoder LzmaDecState :=
  ⟨concatStep f⟩

/-- The XZImageDecodeContext of the C source. decState models the
engine-owned part of the lzma_stream; nextIn models next_in/avail_in;
availOut is the avail_out field exactly as the C code maintains it;
outWritten is the scratch-buffer region between unxz_buffer and
next_out (the bytes written since the last window reset);
memoryIstream is the list of segments added to the
GMemoryInputStream; the three callback fields record whether the
corresponding function pointer is non-NULL. -/
structure XZImageDecodeContext (σ : Type) where
  decState : σ
  nextIn : List Nat
  availOut : Nat
  outWritten : List Nat
  xz_buffer_size : Nat
  memoryIstream : List (List Nat)
  size_func : Bool
  prepare_func : Bool
  updated_func : Bool
  deriving DecidableEq, Repr

/-- gdk_pixbuf__begin_load_xz_image (src lines 173-230): allocate the
context, create the LZMA_CONCATENATED stream decoder, allocate the
64 KiB scratch buffer (xz_buffer_size = 1 shifted left by 16), set
next_in = NULL / avail_in = 0 / avail_out = xz_buffer_size, create the
memory input stream, and store the callbacks. -/
def begin_load {σ : Type} (s0 : σ) (size_func prepare_func updated_func : Bool) :
    XZImageDecodeContext σ :=
  { decState := s0
    nextIn := []
    availOut := 65536
    outWritten := []
    xz_buffer_size := 65536
    memoryIstream := []
    size_func := size_func
    prepare_func := prepare_func
    updated_func := updated_func }

/-- One iteration of the do-while body of _gdk_pixbuf__lzma_code (src
lines 240-257): call lzma_code; on LZMA_OK or LZMA_STREAM_END, drain
mem_buffer_size = xz_buffer_size - avail_out bytes from the start of
the scratch buffer into a freshly allocated segment, add it to the
memory stream, and reset next_out / avail_out; otherwise fail. -/
def lzma_code_body {σ : Type} (d : LzDecoder σ)
    (context : XZImageDecodeContext σ) (lzaction : LzmaAction) :
    XZImageDecodeContext σ × LzmaRet :=
  let r := d.step context.decState lzaction context.nextIn context.availOut
  let context1 := { context with
    decState := r.decState
    nextIn := r.nextIn
    availOut := context.availOut - r.written.length
    outWritten := context.outWritten ++ r.written }
  match r.ret with
  | LzmaRet.err => (context1, LzmaRet.err)
  | ret =>
    let mem_buffer_size := context1.xz_buffer_size - context1.availOut
    let mem_buffer := context1.outWritten.take mem_buffer_size
    ({ context1 with
        memoryIstream := context1.memoryIstream ++ [mem_buffer]
        availOut := context1.xz_buffer_size
        outWritten := [] }, ret)

/-- The do-while loop of _gdk_pixbuf__lzma_code (src lines 240-259):
repeat the body while avail_in is not 0; return TRUE when the input is
exhausted, FALSE on a decode error (goto failure). Fuel exhaustion
yields none. -/
def lzma_code_loop {σ : Type} (d : LzDecoder σ) :
    Nat → XZImageDecodeContext σ → LzmaAction →
    Option (XZImageDecodeContext σ × Bool)
  | 0, _, _ => none
  | fuel + 1, context, lzaction =>
    let p := lzma_code_body d context lzaction
    match p.2 with
    | LzmaRet.err => some (p.1, false)
    | _ =>
      if p.1.nextIn.length ≠ 0 then lzma_code_loop d fuel p.1 lzaction
      else some (p.1, true)

/-- _gdk_pixbuf__lzma_code (src lines 233-264): set next_in / avail_in
to the supplied chunk, then run the drain loop with the given action. -/
def gdk_pixbuf_lzma_code {σ : Type} (d : LzDecoder σ) (fuel : Nat)
    (context : XZImageDecodeContext σ) (buf : List Nat)
    (lzaction : LzmaAction) : Option (XZImageDecodeContext σ × Bool) :=
  lzma_code_loop d fuel { context with nextIn := buf } lzaction

/-- gdk_pixbuf__load_xz_image_increment (src lines 298-300): one
pushChunk call, a plain wrapper running the decode loop with
LZMA_RUN. -/
def load_xz_image_increment {σ : Type} (d : LzDecoder σ) (fuel : Nat)
    (context : XZImageDecodeContext σ) (buf : List Nat) :
    Option (XZImageDecodeContext σ × Bool) :=
  gdk_pixbuf_lzma_code d fuel context buf LzmaAction.run

/-- gdk_pixbuf__stop_load_xz_image (src lines 267-292): run one final
_gdk_pixbuf__lzma_code call with NULL input and LZMA_FINISH, call
lzma_end, attempt gdk_pixbuf_new_from_stream on the accumulated
segments, close the stream, fire the prepared and updated callbacks
when an image was produced, unref the pixbuf, and free the lzma
stream, the scratch buffer and the context. Returns the gboolean
result together with the emitted events. The context is freed and is
not returned. -/
def stop_load {σ : Type} (d : LzDecoder σ)
    (pix : List (List Nat) → Option Pixbuf) (fuel : Nat)
    (context : XZImageDecodeContext σ) : Option (Bool × List Event) :=
  match gdk_pixbuf_lzma_code d fuel context [] LzmaAction.finish with
  | none => none
  | some (context1, ret0) =>
    let pixbuf := pix context1.memoryIstream
    let ret := match pixbuf with
      | none => false
      | some _ => ret0
    let callbackEvents :=
      match pixbuf with
      | some pb =>
        (if context1.prepare_func then [Event.prepared pb.width pb.height] else []) ++
        (if context1.updated_func then [Event.updated 0 0 pb.width pb.height] else [])
      | none => []
    some (ret,
      [Event.lzmaEnd, Event.newFromStream, Event.closeIstream] ++
      callbackEvents ++
      [Event.unrefPixbuf, Event.freeLzstream, Event.freeUnxzBuffer,
       Event.freeContext])

/-- Feed a list of chunks to the incremental session in order, each via
gdk_pixbuf__load_xz_image_increment, stopping unless every call
reports success. -/
def pushChunks {σ : Type} (d : LzDecoder σ) (fuel : Nat) :
    XZImageDecodeContext σ → List (List Nat) →
    Option (XZImageDecodeContext σ)
  | context, [] => some context
  | context, c :: cs =>
    match load_xz_image_increment d fuel context c with
    | some (context1, true) => pushChunks d fuel context1 cs
    | _ => none

/-- The accumulated segment list a full incremental session hands to
the image decoder: begin_load, pushChunk for every chunk, then the
final LZMA_FINISH flush performed by stop_load. -/
def session_accum (f : List Nat → List Nat) (fuel : Nat)
    (chunks : List (List Nat)) : Option (List (List Nat)) :=
  match pushChunks (concatDecoder f) fuel
      (begin_load (⟨[], 0⟩ : LzmaDecState) true true true) chunks with
  | none => none
  | some context =>
    match gdk_pixbuf_lzma_code (concatDecoder f) fuel context []
        LzmaAction.finish with
    | none => none
    | some (context1, _) => some context1.memoryIstream

/-- The one-shot driver's loop state (gdk_pixbuf__load_xz_image, src
lines 61-170): decoder-internal state, unread file bytes, the stdio
EOF flag, next_in / avail_in, the current lzma_action, avail_out, the
scratch-window contents, the accumulated segments and the emitted
events. -/
structure LoadState (σ : Type) where
  decState : σ
  fileRest : List Nat
  eof : Bool
  nextIn : List Nat
  lzaction : LzmaAction
  availOut : Nat
  outWritten : List Nat
  segments : List (List Nat)
  events : List Event
  deriving DecidableEq, Repr

/-- The one-shot driver's buffer size (src line 65): 1 shifted left by
20 bytes. -/
def buffer_size : Nat := 1048576

/-- The while(TRUE) loop of gdk_pixbuf__load_xz_image (src lines
103-142): refill the input from the file when avail_in is 0 and EOF
was not yet seen (switching to LZMA_FINISH once fread hits EOF), call
lzma_code, drain when avail_out is 0 or on LZMA_STREAM_END, then break
on LZMA_STREAM_END, continue on LZMA_OK, or fail on any other
status. The Bool result distinguishes break (true) from goto failure
(false). -/
def load_loop {σ : Type} (d : LzDecoder σ) :
    Nat → LoadState σ → Option (LoadState σ × Bool)
  | 0, _ => none
  | fuel + 1, st =>
    let st1 :=
      if st.nextIn = [] ∧ st.eof = false then
        let chunk := st.fileRest.take buffer_size
        let hitEof := st.fileRest.length < buffer_size
        { st with
          nextIn := chunk
          fileRest := st.fileRest.drop buffer_size
          eof := hitEof
          lzaction := if hitEof then LzmaAction.finish else st.lzaction }
      else st
    let r := d.step st1.decState st1.lzaction st1.nextIn st1.availOut
    let st2 := { st1 with
      decState := r.decState
      nextIn := r.nextIn
      availOut := st1.availOut - r.written.length
      outWritten := st1.outWritten ++ r.written }
    let st3 :=
      if st2.availOut = 0 ∨ r.ret = LzmaRet.streamEnd then
        let mem_buffer_size := buffer_size - st2.availOut
        let mem_buffer := st2.outWritten.take mem_buffer_size
        { st2 with
          segments := st2.segments ++ [mem_buffer]
          events := st2.events ++ [Event.allocSegment]
          outWritten := []
          availOut := buffer_size }
      else st2
    match r.ret with
    | LzmaRet.streamEnd => some (st3, true)
    | LzmaRet.ok => load_loop d fuel st3
    | LzmaRet.err => some (st3, false)

/-- gdk_pixbuf__load_xz_image (src lines 61-170): allocate the lzma
stream, create the decoder, allocate both 1 MiB buffers, create the
memory stream, run the loop, then decode the accumulated segments into
a pixbuf. On success (src lines 150-156) close the stream, call
lzma_end and free everything; on any goto failure (src lines 158-168)
free xz_buffer, unxz_buffer and the lzma_stream struct and close the
stream, with no lzma_end and no unref of the stream object. -/
def gdk_pixbuf_load_xz_image {σ : Type} (d : LzDecoder σ) (s0 : σ)
    (pix : List (List Nat) → Option Pixbuf) (fuel : Nat)
    (file : List Nat) : Option (Option Pixbuf × List Event) :=
  let ev0 := [Event.allocLzstream, Event.lzmaInitInternal,
    Event.allocXzBuffer, Event.allocUnxzBuffer, Event.newIstream]
  let st0 : LoadState σ :=
    ⟨s0, file, false, [], LzmaAction.run, buffer_size, [], [], ev0⟩
  match load_loop d fuel st0 with
  | none => none
  | some (st, true) =>
    match pix st.segments with
    | none =>
      some (none, st.events ++ [Event.freeXzBuffer, Event.freeUnxzBuffer,
        Event.freeLzstream, Event.closeIstream])
    | some pb =>
      some (some pb, st.events ++ [Event.closeIstream, Event.lzmaEnd,
        Event.freeLzstream, Event.freeXzBuffer, Event.freeUnxzBuffer])
  | some (st, false) =>
    some (none, st.events ++ [Event.freeXzBuffer, Event.freeUnxzBuffer,
      Event.freeLzstream, Event.closeIstream])

/-- A decompression function producing no output: models a compressed
prefix (e.g. stream headers) that decodes to nothing. -/
def fZero : List Nat → List Nat := fun _ => []

/-- A decompression function with high expansion: two compressed bytes
decode to 131074 plaintext bytes (two scratch buffers plus two bytes),
with a 2-byte plaintext prefix already decodable from the first
byte. Prefix-monotone, as decompression is. -/
def fBig : List Nat → List Nat
  | [] => []
  | [_] => List.replicate 2 7
  | _ :: _ :: _ => List.replicate 131074 7

/-- A contract-conforming decoder behavior that reports
LZMA_STREAM_END while consuming each chunk and emitting one byte
(liblzma reports LZMA_STREAM_END under LZMA_RUN when the stream
decoder is used without LZMA_CONCATENATED; the C code handles that
status explicitly in its drain branch). -/
def dSE : LzDecoder Nat :=
  ⟨fun s _ _ _ => ⟨s + 1, [], [if s = 0 then 9 else 8], LzmaRet.streamEnd⟩⟩

/-- A decoder behavior whose every call fails with a decode error,
consuming nothing: models lzma_code on a corrupt stream. -/
def dErrU : LzDecoder Unit :=
  ⟨fun _ _ inp _ => ⟨(), inp, [], LzmaRet.err⟩⟩

/-- The freshly begun incremental session over the concrete decoder
model. -/
def ctx0LD : XZImageDecodeContext LzmaDecState :=
  begin_load ⟨[], 0⟩ true true true

/-- The session context after pushing the chunk with the single byte 5
through the fZero model: the byte is consumed and one empty segment
has been appended. -/
def ctxC10 : XZImageDecodeContext LzmaDecState :=
  ⟨⟨[5], 0⟩, [], 65536, [], 65536, [[]], true, true, true⟩

/-- The session context over dSE after one pushChunk that saw
LZMA_STREAM_END: the residual byte 9 was drained into a segment. -/
def ctxSE1 : XZImageDecodeContext Nat :=
  ⟨1, [], 65536, [], 65536, [[9]], true, true, true⟩

/-- The session context over dSE after a second pushChunk following
the LZMA_STREAM_END one: the second chunk was still processed and a
second segment was appended. -/
def ctxSE2 : XZImageDecodeContext Nat :=
  ⟨2, [], 65536, [], 65536, [[9], [8]], true, true, true⟩

/-- The session context after the final flush of an fZero session:
stream end was reported and one empty segment appended. -/
def ctxFinZ : XZImageDecodeContext LzmaDecState :=
  ⟨⟨[], 0⟩, [], 65536, [], 65536, [[]], true, true, true⟩

/-- Events emitted by stop_load when the flush fails and the image
decode yields no pixbuf. -/
def evC2 : List Event :=
  [Event.lzmaEnd, Event.newFromStream, Event.closeIstream,
   Event.unrefPixbuf, Event.freeLzstream, Event.freeUnxzBuffer,
   Event.freeContext]

/-- Events emitted by stop_load when the flush fails but the image
decode of the partial data succeeds with a 3 by 2 image: both
callbacks fire although the call reports failure. -/
def evC6 : List Event :=
  [Event.lzmaEnd, Event.newFromStream, Event.closeIstream,
   Event.prepared 3 2, Event.updated 0 0 3 2, Event.unrefPixbuf,
   Event.freeLzstream, Event.freeUnxzBuffer, Event.freeContext]

/-- Events emitted by the one-shot driver on the decode-error failure
exit: the engine was initialised but lzma_end is never called and the
memory stream is never unreferenced. -/
def evC9 : List Event :=
  [Event.allocLzstream, Event.lzmaInitInternal, Event.allocXzBuffer,
   Event.allocUnxzBuffer, Event.newIstream, Event.freeXzBuffer,
   Event.freeUnxzBuffer, Event.freeLzstream, Event.closeIstream]

/-- Session context after the first pushChunk of the stream [0, 1] fed
as a single chunk to the fBig model: one full 64 KiB segment drained;
65538 plaintext bytes remain pending inside the decoder. -/
def ctxA1 : XZImageDecodeContext LzmaDecState :=
  ⟨⟨[0, 1], 65536⟩, [], 65536, [], 65536,
   [List.replicate 65536 7], true, true, true⟩

/-- Session context after the finish flush of the single-chunk fBig
session: the single LZMA_FINISH iteration drained one more 64 KiB
segment and returned, leaving 2 pending plaintext bytes undrained. -/
def ctxA2 : XZImageDecodeContext LzmaDecState :=
  ⟨⟨[0, 1], 131072⟩, [], 65536, [], 65536,
   [List.replicate 65536 7, List.replicate 65536 7], true, true, true⟩

/-- Session context after pushing the first chunk [0] of the split
feed to the fBig model: a 2-byte segment was drained. -/
def ctxB1 : XZImageDecodeContext LzmaDecState :=
  ⟨⟨[0], 2⟩, [], 65536, [], 65536,
   [List.replicate 2 7], true, true, true⟩

/-- Session context after pushing the second chunk [1] of the split
feed: a full 64 KiB segment was drained; 65536 bytes remain pending. -/
def ctxB2 : XZImageDecodeContext LzmaDecState :=
  ⟨⟨[0, 1], 65538⟩, [], 65536, [], 65536,
   [List.replicate 2 7, List.replicate 65536 7], true, true, true⟩

/-- Session context after the finish flush of the split-chunk fBig
session: the final 65536 pending bytes fit the flush exactly, so all
131074 plaintext bytes were accumulated. -/
def ctxB3 : XZImageDecodeContext LzmaDecState :=
  ⟨⟨[0, 1], 131074⟩, [], 65536, [], 65536,
   [List.replicate 2 7, List.replicate 65536 7, List.replicate 65536 7],
   true, true, true⟩

/-- Session states reachable through the module entry points over the
concrete decoder model: the state created by begin_load, and any state
produced by a load_increment call or by the LZMA_FINISH flush that
stop_load performs. -/
inductive Reachable (f : List Nat → List Nat) :
    XZImageDecodeContext LzmaDecState → Prop where
  | start (sf pf uf : Bool) :
      Reachable f (begin_load ⟨[], 0⟩ sf pf uf)
  | push (ctx ctx2 : XZImageDecodeContext LzmaDecState) (fuel : Nat)
      (buf : List Nat) (b : Bool) :
      Reachable f ctx →
      load_xz_image_increment (concatDecoder f) fuel ctx buf = some (ctx2, b) →
      Reachable f ctx2
  | flush (ctx ctx2 : XZImageDecodeContext LzmaDecState) (fuel : Nat)
      (b : Bool) :
      Reachable f ctx →
      gdk_pixbuf_lzma_code (concatDecoder f) fuel ctx [] LzmaAction.finish =
        some (ctx2, b) →
      Reachable f ctx2

/-- An image-decode collaborator that always fails (the accumulated
bytes are not a valid image). -/
def pixNone : List (List Nat) → Option Pixbuf := fun _ => none

/-- An image-decode collaborator that always produces a 3 by 2 image. -/
def pix32 : List (List Nat) → Option Pixbuf := fun _ => some ⟨3, 2⟩

/-- An image-decode collaborator that always produces a 4 by 3 image. -/
def pix43 : List (List Nat) → Option Pixbuf := fun _ => some ⟨4, 3⟩

/-- A freshly begun session over the dSE decoder behavior. -/
def ctx0N : XZImageDecodeContext Nat := begin_load 0 true true true

/-- A freshly begun session over the failing decoder behavior. -/
def ctx0U : XZImageDecodeContext Unit := begin_load () true true true

/-- Balance of one decode call in the concrete model: the bytes
written plus the remaining output space equal the initial output
space. -/
theorem lzRun_balance (f : List Nat → List Nat) :
    ∀ (inp : List Nat) (s : LzmaDecState) (availOut : Nat),
      (lzRun f s inp availOut).written.length +
        (lzRun f s inp availOut).availOut = availOut := by
  intro inp
  induction inp with
  | nil =>
    intro s a
    have hw : (List.take a (pendingOut f s)).length ≤ a := by
      rw [List.length_take]
      exact min_le_left _ _
    simp only [lzRun]
    split
    · dsimp only
      omega
    · dsimp only
      omega
  | cons b rest ih =>
    intro s a
    have hw : (List.take a (pendingOut f s)).length ≤ a := by
      rw [List.length_take]
      exact min_le_left _ _
    simp only [lzRun]
    split
    · dsimp only
      omega
    · dsimp only
      rw [List.length_append]
      have hi := ih ⟨s.consumed ++ [b],
          s.emitted + (List.take a (pendingOut f s)).length⟩
        (a - (List.take a (pendingOut f s)).length)
      omega

/-- The written bytes of one decode call never exceed the available
output space. -/
theorem lzRun_written_le (f : List Nat → List Nat) (inp : List Nat)
    (s : LzmaDecState) (availOut : Nat) :
    (lzRun f s inp availOut).written.length ≤ availOut := by
  have := lzRun_balance f inp s availOut
  omega

/-- The concrete decoder model never reports a decode error. -/
theorem concatStep_ret_ne_err (f : List Nat → List Nat)
    (s : LzmaDecState) (act : LzmaAction) (inp : List Nat)
    (availOut : Nat) :
    (concatStep f s act inp availOut).ret ≠ LzmaRet.err := by
  unfold concatStep
  cases act
  · simp
  · dsimp only
    split <;> simp

/-- Characterization of one do-while iteration given the result of the
lzma_code call it makes. -/
theorem lzma_code_body_of_step {σ : Type} {d : LzDecoder σ}
    {context : XZImageDecodeContext σ} {lzaction : LzmaAction}
    {r : StepResult σ}
    (h : d.step context.decState lzaction context.nextIn context.availOut = r) :
    lzma_code_body d context lzaction =
      if r.ret = LzmaRet.err then
        ({ context with
            decState := r.decState
            nextIn := r.nextIn
            availOut := context.availOut - r.written.length
            outWritten := context.outWritten ++ r.written }, LzmaRet.err)
      else
        ({ context with
            decState := r.decState
            nextIn := r.nextIn
            availOut := context.xz_buffer_size
            outWritten := []
            memoryIstream := context.memoryIstream ++
              [(context.outWritten ++ r.written).take
                (context.xz_buffer_size -
                  (context.availOut - r.written.length))] }, r.ret) := by
  unfold lzma_code_body
  rw [h]
  obtain ⟨s2, in2, w, ret⟩ := r
  cases ret <;> rfl

/-- One do-while iteration leaves the buffer-size and callback fields
of the context unchanged. -/
theorem lzma_code_body_preserves {σ : Type} (d : LzDecoder σ)
    (context : XZImageDecodeContext σ) (lzaction : LzmaAction) :
    (lzma_code_body d context lzaction).1.xz_buffer_size = context.xz_buffer_size ∧
    (lzma_code_body d context lzaction).1.size_func = context.size_func ∧
    (lzma_code_body d context lzaction).1.prepare_func = context.prepare_func ∧
    (lzma_code_body d context lzaction).1.updated_func = context.updated_func := by
  rw [lzma_code_body_of_step rfl]
  split <;> simp

/-- The status produced by one do-while iteration is the status of the
lzma_code call inside it. -/
theorem lzma_code_body_snd {σ : Type} (d : LzDecoder σ)
    (context : XZImageDecodeContext σ) (lzaction : LzmaAction) :
    (lzma_code_body d context lzaction).2 =
      (d.step context.decState lzaction context.nextIn context.availOut).ret := by
  rw [lzma_code_body_of_step rfl]
  split
  · next h => simp [h]
  · simp

/-- After a non-error do-while iteration, the window has been drained
and reset: avail_out equals the buffer capacity and the write cursor
is back at the start. -/
theorem lzma_code_body_reset {σ : Type} {d : LzDecoder σ}
    {context : XZImageDecodeContext σ} {lzaction : LzmaAction}
    {c1 : XZImageDecodeContext σ} {ret : LzmaRet}
    (hb : lzma_code_body d context lzaction = (c1, ret))
    (hret : ret ≠ LzmaRet.err) :
    c1.availOut = c1.xz_buffer_size ∧ c1.outWritten = [] := by
  rw [lzma_code_body_of_step rfl] at hb
  split at hb
  · simp only [Prod.mk.injEq] at hb
    exact absurd hb.2.symm hret
  · simp only [Prod.mk.injEq] at hb
    obtain ⟨h1, _⟩ := hb
    subst h1
    simp

/-- Whenever the do-while loop returns TRUE, the input has been fully
consumed, the output window has been drained and reset to full
capacity, and the buffer-size and callback fields are unchanged. -/
theorem lzma_code_loop_true_spec {σ : Type} (d : LzDecoder σ) :
    ∀ (fuel : Nat) (context ctx2 : XZImageDecodeContext σ)
      (lzaction : LzmaAction),
      lzma_code_loop d fuel context lzaction = some (ctx2, true) →
      ctx2.nextIn = [] ∧ ctx2.availOut = ctx2.xz_buffer_size ∧
      ctx2.outWritten = [] ∧
      ctx2.xz_buffer_size = context.xz_buffer_size ∧
      ctx2.size_func = context.size_func ∧
      ctx2.prepare_func = context.prepare_func ∧
      ctx2.updated_func = context.updated_func := by
  intro fuel
  induction fuel with
  | zero =>
    intro context ctx2 lzaction h
    simp [lzma_code_loop] at h
  | succ n ih =>
    intro context ctx2 lzaction h
    simp only [lzma_code_loop] at h
    rcases hb : lzma_code_body d context lzaction with ⟨c1, ret⟩
    rw [hb] at h
    have hp := lzma_code_body_preserves d context lzaction
    rw [hb] at hp
    cases ret with
    | err => simp at h
    | ok =>
      dsimp only at h
      split at h
      · have hr := ih c1 ctx2 lzaction h
        exact ⟨hr.1, hr.2.1, hr.2.2.1, hr.2.2.2.1.trans hp.1,
          hr.2.2.2.2.1.trans hp.2.1, hr.2.2.2.2.2.1.trans hp.2.2.1,
          hr.2.2.2.2.2.2.trans hp.2.2.2⟩
      · next hn =>
        simp only [Option.some.injEq, Prod.mk.injEq] at h
        obtain ⟨h1, _⟩ := h
        subst h1
        have hre := lzma_code_body_reset hb (by simp)
        refine ⟨?_, hre.1, hre.2, hp.1, hp.2.1, hp.2.2.1, hp.2.2.2⟩
        simpa using hn
    | streamEnd =>
      dsimp only at h
      split at h
      · have hr := ih c1 ctx2 lzaction h
        exact ⟨hr.1, hr.2.1, hr.2.2.1, hr.2.2.2.1.trans hp.1,
          hr.2.2.2.2.1.trans hp.2.1, hr.2.2.2.2.2.1.trans hp.2.2.1,
          hr.2.2.2.2.2.2.trans hp.2.2.2⟩
      · next hn =>
        simp only [Option.some.injEq, Prod.mk.injEq] at h
        obtain ⟨h1, _⟩ := h
        subst h1
        have hre := lzma_code_body_reset hb (by simp)
        refine ⟨?_, hre.1, hre.2, hp.1, hp.2.1, hp.2.2.1, hp.2.2.2⟩
        simpa using hn

/-- Over the concrete decoder model the loop never takes its error
exit: a returned gboolean is always TRUE. -/
theorem lzma_code_loop_concat_true (f : List Nat → List Nat) :
    ∀ (fuel : Nat) (context ctx2 : XZImageDecodeContext LzmaDecState)
      (lzaction : LzmaAction) (b : Bool),
      lzma_code_loop (concatDecoder f) fuel context lzaction =
        some (ctx2, b) → b = true := by
  intro fuel
  induction fuel with
  | zero =>
    intro context ctx2 lzaction b h
    simp [lzma_code_loop] at h
  | succ n ih =>
    intro context ctx2 lzaction b h
    simp only [lzma_code_loop] at h
    rcases hb : lzma_code_body (concatDecoder f) context lzaction with ⟨c1, ret⟩
    rw [hb] at h
    have hne : ret ≠ LzmaRet.err := by
      have hs := lzma_code_body_snd (concatDecoder f) context lzaction
      rw [hb] at hs
      simp only [] at hs
      rw [hs]
      exact concatStep_ret_ne_err f context.decState lzaction
        context.nextIn context.availOut
    cases ret with
    | err => exact absurd rfl hne
    | ok =>
      dsimp only at h
      split at h
      · exact ih c1 ctx2 lzaction b h
      · simp only [Option.some.injEq, Prod.mk.injEq] at h
        exact h.2.symm
    | streamEnd =>
      dsimp only at h
      split at h
      · exact ih c1 ctx2 lzaction b h
      · simp only [Option.some.injEq, Prod.mk.injEq] at h
        exact h.2.symm

/-- Every reachable session state has a fully reset scratch window:
avail_out equals the 64 KiB capacity and the write cursor is 0. -/
theorem reachable_spec {f : List Nat → List Nat}
    {ctx : XZImageDecodeContext LzmaDecState} (h : Reachable f ctx) :
    ctx.availOut = ctx.xz_buffer_size ∧ ctx.outWritten = [] ∧
    ctx.xz_buffer_size = 65536 := by
  induction h with
  | start sf pf uf => simp [begin_load]
  | push c c2 fuel buf b hr hstep ih =>
    have hb : b = true := by
      exact lzma_code_loop_concat_true f fuel { c with nextIn := buf } c2
        LzmaAction.run b hstep
    subst hb
    have hs := lzma_code_loop_true_spec (concatDecoder f) fuel
      { c with nextIn := buf } c2 LzmaAction.run hstep
    exact ⟨hs.2.1, hs.2.2.1, hs.2.2.2.1.trans ih.2.2⟩
  | flush c c2 fuel b hr hstep ih =>
    have hb : b = true := by
      exact lzma_code_loop_concat_true f fuel { c with nextIn := [] } c2
        LzmaAction.finish b hstep
    subst hb
    have hs := lzma_code_loop_true_spec (concatDecoder f) fuel
      { c with nextIn := [] } c2 LzmaAction.finish hstep
    exact ⟨hs.2.1, hs.2.2.1, hs.2.2.2.1.trans ih.2.2⟩

theorem lzRun_nil_full (f : List Nat → List Nat) (s : LzmaDecState) (a n : Nat)
    (hp : pendingOut f s = List.replicate (a + n) 7) :
    lzRun f s [] a = ⟨⟨s.consumed, s.emitted + a⟩, [], List.replicate a 7, 0⟩ := by
  rw [lzRun, hp, List.take_replicate, min_eq_left (Nat.le_add_right a n),
    List.length_replicate]
  simp

theorem lzRun_nil_short (f : List Nat → List Nat) (s : LzmaDecState) (a m : Nat)
    (hp : pendingOut f s = List.replicate m 7) (h : m < a) :
    lzRun f s [] a = ⟨⟨s.consumed, s.emitted + m⟩, [], List.replicate m 7, a - m⟩ := by
  rw [lzRun, hp, List.take_replicate, min_eq_right (le_of_lt h),
    List.length_replicate]
  rw [if_neg (by omega)]

theorem lzRun_cons (f : List Nat → List Nat) (s : LzmaDecState) (b : Nat)
    (rest : List Nat) (a m : Nat)
    (hp : pendingOut f s = List.replicate m 7) (h : m < a) :
    lzRun f s (b :: rest) a =
      ⟨(lzRun f ⟨s.consumed ++ [b], s.emitted + m⟩ rest (a - m)).state,
       (lzRun f ⟨s.consumed ++ [b], s.emitted + m⟩ rest (a - m)).rest,
       List.replicate m 7 ++
         (lzRun f ⟨s.consumed ++ [b], s.emitted + m⟩ rest (a - m)).written,
       (lzRun f ⟨s.consumed ++ [b], s.emitted + m⟩ rest (a - m)).availOut⟩ := by
  conv_lhs => rw [lzRun]
  rw [hp, List.take_replicate, min_eq_right (le_of_lt h), List.length_replicate]
  rw [if_neg (by omega)]

theorem pend01 (k : Nat) :
    pendingOut fBig ⟨[0, 1], k⟩ = List.replicate (131074 - k) 7 := by
  rw [pendingOut]
  dsimp only
  rw [show fBig [0, 1] = List.replicate 131074 7 from rfl, List.drop_replicate]

theorem lzRun_A2 : lzRun fBig ⟨[0, 1], 2⟩ [] 65534 =
    ⟨⟨[0, 1], 65536⟩, [], List.replicate 65534 7, 0⟩ := by
  rw [lzRun_nil_full fBig ⟨[0, 1], 2⟩ 65534 65538 (by rw [pend01])]

theorem lzRun_A1 : lzRun fBig ⟨[0], 0⟩ [1] 65536 =
    ⟨⟨[0, 1], 65536⟩, [], List.replicate 65536 7, 0⟩ := by
  rw [lzRun_cons fBig ⟨[0], 0⟩ 1 [] 65536 2 rfl (by norm_num)]
  show (⟨(lzRun fBig ⟨[0, 1], 2⟩ [] 65534).state,
      (lzRun fBig ⟨[0, 1], 2⟩ [] 65534).rest,
      List.replicate 2 7 ++ (lzRun fBig ⟨[0, 1], 2⟩ [] 65534).written,
      (lzRun fBig ⟨[0, 1], 2⟩ [] 65534).availOut⟩ : LzRunResult) =
    ⟨⟨[0, 1], 65536⟩, [], List.replicate 65536 7, 0⟩
  rw [lzRun_A2]
  rw [show (65536 : Nat) = 2 + 65534 from rfl, List.replicate_add]

theorem lzRun_A0 : lzRun fBig ⟨[], 0⟩ [0, 1] 65536 =
    ⟨⟨[0, 1], 65536⟩, [], List.replicate 65536 7, 0⟩ := by
  rw [lzRun_cons fBig ⟨[], 0⟩ 0 [1] 65536 0 rfl (by norm_num)]
  show (⟨(lzRun fBig ⟨[0], 0⟩ [1] 65536).state,
      (lzRun fBig ⟨[0], 0⟩ [1] 65536).rest,
      List.replicate 0 7 ++ (lzRun fBig ⟨[0], 0⟩ [1] 65536).written,
      (lzRun fBig ⟨[0], 0⟩ [1] 65536).availOut⟩ : LzRunResult) =
    ⟨⟨[0, 1], 65536⟩, [], List.replicate 65536 7, 0⟩
  rw [lzRun_A1]
  rw [show List.replicate 0 (7 : Nat) = [] from rfl, List.nil_append]

theorem lzRun_Afin : lzRun fBig ⟨[0, 1], 65536⟩ [] 65536 =
    ⟨⟨[0, 1], 131072⟩, [], List.replicate 65536 7, 0⟩ := by
  rw [lzRun_nil_full fBig ⟨[0, 1], 65536⟩ 65536 2 (by rw [pend01])]

theorem lzRun_B0i : lzRun fBig ⟨[0], 0⟩ [] 65536 =
    ⟨⟨[0], 2⟩, [], List.replicate 2 7, 65534⟩ := by
  rw [lzRun_nil_short fBig ⟨[0], 0⟩ 65536 2 rfl (by norm_num)]

theorem lzRun_B0 : lzRun fBig ⟨[], 0⟩ [0] 65536 =
    ⟨⟨[0], 2⟩, [], List.replicate 2 7, 65534⟩ := by
  rw [lzRun_cons fBig ⟨[], 0⟩ 0 [] 65536 0 rfl (by norm_num)]
  show (⟨(lzRun fBig ⟨[0], 0⟩ [] 65536).state,
      (lzRun fBig ⟨[0], 0⟩ [] 65536).rest,
      List.replicate 0 7 ++ (lzRun fBig ⟨[0], 0⟩ [] 65536).written,
      (lzRun fBig ⟨[0], 0⟩ [] 65536).availOut⟩ : LzRunResult) =
    ⟨⟨[0], 2⟩, [], List.replicate 2 7, 65534⟩
  rw [lzRun_B0i]
  rw [show List.replicate 0 (7 : Nat) = [] from rfl, List.nil_append]

theorem lzRun_B1i : lzRun fBig ⟨[0, 1], 2⟩ [] 65536 =
    ⟨⟨[0, 1], 65538⟩, [], List.replicate 65536 7, 0⟩ := by
  rw [lzRun_nil_full fBig ⟨[0, 1], 2⟩ 65536 65536 (by rw [pend01])]

theorem lzRun_B1 : lzRun fBig ⟨[0], 2⟩ [1] 65536 =
    ⟨⟨[0, 1], 65538⟩, [], List.replicate 65536 7, 0⟩ := by
  rw [lzRun_cons fBig ⟨[0], 2⟩ 1 [] 65536 0 rfl (by norm_num)]
  show (⟨(lzRun fBig ⟨[0, 1], 2⟩ [] 65536).state,
      (lzRun fBig ⟨[0, 1], 2⟩ [] 65536).rest,
      List.replicate 0 7 ++ (lzRun fBig ⟨[0, 1], 2⟩ [] 65536).written,
      (lzRun fBig ⟨[0, 1], 2⟩ [] 65536).availOut⟩ : LzRunResult) =
    ⟨⟨[0, 1], 65538⟩, [], List.replicate 65536 7, 0⟩
  rw [lzRun_B1i]
  rw [show List.replicate 0 (7 : Nat) = [] from rfl, List.nil_append]

theorem lzRun_Bfin : lzRun fBig ⟨[0, 1], 65538⟩ [] 65536 =
    ⟨⟨[0, 1], 131074⟩, [], List.replicate 65536 7, 0⟩ := by
  rw [lzRun_nil_full fBig ⟨[0, 1], 65538⟩ 65536 0 (by rw [pend01])]

theorem pend_131072 : pendingOut fBig ⟨[0, 1], 131072⟩ = List.replicate 2 7 := by
  rw [pend01]

theorem pend_131074 : pendingOut fBig ⟨[0, 1], 131074⟩ = [] := by
  rw [pend01]
  rfl

theorem step_run_of (f : List Nat → List Nat) (s : LzmaDecState)
    (inp : List Nat) (a : Nat) (r : LzRunResult) (h : lzRun f s inp a = r) :
    (concatDecoder f).step s LzmaAction.run inp a =
      ⟨r.state, r.rest, r.written, LzmaRet.ok⟩ := by
  show concatStep f s LzmaAction.run inp a = _
  simp only [concatStep]
  rw [h]

theorem step_finish_ok_of (f : List Nat → List Nat) (s : LzmaDecState)
    (inp : List Nat) (a : Nat) (r : LzRunResult) (h : lzRun f s inp a = r)
    (hne : ¬(r.rest = [] ∧ pendingOut f r.state = [])) :
    (concatDecoder f).step s LzmaAction.finish inp a =
      ⟨r.state, r.rest, r.written, LzmaRet.ok⟩ := by
  show concatStep f s LzmaAction.finish inp a = _
  simp only [concatStep]
  rw [h, if_neg hne]

theorem step_finish_end_of (f : List Nat → List Nat) (s : LzmaDecState)
    (inp : List Nat) (a : Nat) (r : LzRunResult) (h : lzRun f s inp a = r)
    (he : r.rest = [] ∧ pendingOut f r.state = []) :
    (concatDecoder f).step s LzmaAction.finish inp a =
      ⟨r.state, r.rest, r.written, LzmaRet.streamEnd⟩ := by
  show concatStep f s LzmaAction.finish inp a = _
  simp only [concatStep]
  rw [h, if_pos he]

theorem lzma_code_body_reset_step {σ : Type} (d : LzDecoder σ)
    (ctx : XZImageDecodeContext σ) (act : LzmaAction) (r : StepResult σ)
    (hs : d.step ctx.decState act ctx.nextIn ctx.availOut = r)
    (hret : r.ret ≠ LzmaRet.err)
    (hA : ctx.availOut = ctx.xz_buffer_size)
    (hW : ctx.outWritten = [])
    (hle : r.written.length ≤ ctx.xz_buffer_size) :
    lzma_code_body d ctx act =
      ({ ctx with
          decState := r.decState
          nextIn := r.nextIn
          availOut := ctx.xz_buffer_size
          outWritten := []
          memoryIstream := ctx.memoryIstream ++ [r.written] }, r.ret) := by
  rw [lzma_code_body_of_step hs, if_neg hret, hA, hW, List.nil_append]
  rw [show ctx.xz_buffer_size - (ctx.xz_buffer_size - r.written.length) =
    r.written.length from by omega]
  rw [List.take_length]

theorem lzma_code_loop_one {σ : Type} (d : LzDecoder σ) (n : Nat)
    (ctx c1 : XZImageDecodeContext σ) (act : LzmaAction) (ret : LzmaRet)
    (hb : lzma_code_body d ctx act = (c1, ret))
    (hret : ret ≠ LzmaRet.err)
    (hnil : c1.nextIn = []) :
    lzma_code_loop d (n + 1) ctx act = some (c1, true) := by
  simp only [lzma_code_loop]
  rw [hb]
  cases ret with
  | err => exact absurd rfl hret
  | ok =>
    dsimp only
    rw [if_neg (by simp [hnil])]
  | streamEnd =>
    dsimp only
    rw [if_neg (by simp [hnil])]

theorem body_A : lzma_code_body (concatDecoder fBig)
    { ctx0LD with nextIn := [0, 1] } LzmaAction.run = (ctxA1, LzmaRet.ok) := by
  have hs : (concatDecoder fBig).step
      ({ ctx0LD with nextIn := [0, 1] }).decState LzmaAction.run
      ({ ctx0LD with nextIn := [0, 1] }).nextIn
      ({ ctx0LD with nextIn := [0, 1] }).availOut =
      ⟨⟨[0, 1], 65536⟩, [], List.replicate 65536 7, LzmaRet.ok⟩ :=
    step_run_of fBig ⟨[], 0⟩ [0, 1] 65536 _ lzRun_A0
  have hle : (List.replicate 65536 (7 : Nat)).length ≤ 65536 := by
    rw [List.length_replicate]
  rw [lzma_code_body_reset_step (concatDecoder fBig)
    { ctx0LD with nextIn := [0, 1] } LzmaAction.run _ hs (by decide) rfl rfl hle]
  rfl

theorem push_A (n : Nat) :
    load_xz_image_increment (concatDecoder fBig) (n + 1) ctx0LD [0, 1] =
      some (ctxA1, true) := by
  show lzma_code_loop (concatDecoder fBig) (n + 1)
    { ctx0LD with nextIn := [0, 1] } LzmaAction.run = _
  exact lzma_code_loop_one (concatDecoder fBig) n _ ctxA1 LzmaAction.run
    LzmaRet.ok body_A (by decide) rfl

theorem body_Afin : lzma_code_body (concatDecoder fBig)
    { ctxA1 with nextIn := [] } LzmaAction.finish = (ctxA2, LzmaRet.ok) := by
  have hne : ¬((⟨⟨[0, 1], 131072⟩, [], List.replicate 65536 7,
      0⟩ : LzRunResult).rest = [] ∧
      pendingOut fBig (⟨⟨[0, 1], 131072⟩, [], List.replicate 65536 7,
        0⟩ : LzRunResult).state = []) := by
    intro hcontra
    have h2 := hcontra.2
    rw [show (⟨⟨[0, 1], 131072⟩, [], List.replicate 65536 7,
      0⟩ : LzRunResult).state = ⟨[0, 1], 131072⟩ from rfl, pend_131072] at h2
    exact absurd h2 (by decide)
  have hs : (concatDecoder fBig).step
      ({ ctxA1 with nextIn := [] }).decState LzmaAction.finish
      ({ ctxA1 with nextIn := [] }).nextIn
      ({ ctxA1 with nextIn := [] }).availOut =
      ⟨⟨[0, 1], 131072⟩, [], List.replicate 65536 7, LzmaRet.ok⟩ :=
    step_finish_ok_of fBig ⟨[0, 1], 65536⟩ [] 65536 _ lzRun_Afin hne
  have hle : (List.replicate 65536 (7 : Nat)).length ≤ 65536 := by
    rw [List.length_replicate]
  rw [lzma_code_body_reset_step (concatDecoder fBig)
    { ctxA1 with nextIn := [] } LzmaAction.finish _ hs (by decide) rfl rfl hle]
  rfl

theorem fin_A (n : Nat) :
    gdk_pixbuf_lzma_code (concatDecoder fBig) (n + 1) ctxA1 []
      LzmaAction.finish = some (ctxA2, true) := by
  show lzma_code_loop (concatDecoder fBig) (n + 1)
    { ctxA1 with nextIn := [] } LzmaAction.finish = _
  exact lzma_code_loop_one (concatDecoder fBig) n _ ctxA2 LzmaAction.finish
    LzmaRet.ok body_Afin (by decide) rfl

theorem body_B0 : lzma_code_body (concatDecoder fBig)
    { ctx0LD with nextIn := [0] } LzmaAction.run = (ctxB1, LzmaRet.ok) := by
  have hs : (concatDecoder fBig).step
      ({ ctx0LD with nextIn := [0] }).decState LzmaAction.run
      ({ ctx0LD with nextIn := [0] }).nextIn
      ({ ctx0LD with nextIn := [0] }).availOut =
      ⟨⟨[0], 2⟩, [], List.replicate 2 7, LzmaRet.ok⟩ :=
    step_run_of fBig ⟨[], 0⟩ [0] 65536 _ lzRun_B0
  have hle : (List.replicate 2 (7 : Nat)).length ≤ 65536 := by
    rw [List.length_replicate]
    norm_num
  rw [lzma_code_body_reset_step (concatDecoder fBig)
    { ctx0LD with nextIn := [0] } LzmaAction.run _ hs (by decide) rfl rfl hle]
  rfl

theorem push_B0 (n : Nat) :
    load_xz_image_increment (concatDecoder fBig) (n + 1) ctx0LD [0] =
      some (ctxB1, true) := by
  show lzma_code_loop (concatDecoder fBig) (n + 1)
    { ctx0LD with nextIn := [0] } LzmaAction.run = _
  exact lzma_code_loop_one (concatDecoder fBig) n _ ctxB1 LzmaAction.run
    LzmaRet.ok body_B0 (by decide) rfl

theorem body_B1 : lzma_code_body (concatDecoder fBig)
    { ctxB1 with nextIn := [1] } LzmaAction.run = (ctxB2, LzmaRet.ok) := by
  have hs : (concatDecoder fBig).step
      ({ ctxB1 with nextIn := [1] }).decState LzmaAction.run
      ({ ctxB1 with nextIn := [1] }).nextIn
      ({ ctxB1 with nextIn := [1] }).availOut =
      ⟨⟨[0, 1], 65538⟩, [], List.replicate 65536 7, LzmaRet.ok⟩ :=
    step_run_of fBig ⟨[0], 2⟩ [1] 65536 _ lzRun_B1
  have hle : (List.replicate 65536 (7 : Nat)).length ≤ 65536 := by
    rw [List.length_replicate]
  rw [lzma_code_body_reset_step (concatDecoder fBig)
    { ctxB1 with nextIn := [1] } LzmaAction.run _ hs (by decide) rfl rfl hle]
  rfl

theorem push_B1 (n : Nat) :
    load_xz_image_increment (concatDecoder fBig) (n + 1) ctxB1 [1] =
      some (ctxB2, true) := by
  show lzma_code_loop (concatDecoder fBig) (n + 1)
    { ctxB1 with nextIn := [1] } LzmaAction.run = _
  exact lzma_code_loop_one (concatDecoder fBig) n _ ctxB2 LzmaAction.run
    LzmaRet.ok body_B1 (by decide) rfl

theorem body_Bfin : lzma_code_body (concatDecoder fBig)
    { ctxB2 with nextIn := [] } LzmaAction.finish =
      (ctxB3, LzmaRet.streamEnd) := by
  have he : (⟨⟨[0, 1], 131074⟩, [], List.replicate 65536 7,
      0⟩ : LzRunResult).rest = [] ∧
      pendingOut fBig (⟨⟨[0, 1], 131074⟩, [], List.replicate 65536 7,
        0⟩ : LzRunResult).state = [] := by
    constructor
    · rfl
    · rw [show (⟨⟨[0, 1], 131074⟩, [], List.replicate 65536 7,
        0⟩ : LzRunResult).state = ⟨[0, 1], 131074⟩ from rfl, pend_131074]
  have hs : (concatDecoder fBig).step
      ({ ctxB2 with nextIn := [] }).decState LzmaAction.finish
      ({ ctxB2 with nextIn := [] }).nextIn
      ({ ctxB2 with nextIn := [] }).availOut =
      ⟨⟨[0, 1], 131074⟩, [], List.replicate 65536 7, LzmaRet.streamEnd⟩ :=
    step_finish_end_of fBig ⟨[0, 1], 65538⟩ [] 65536 _ lzRun_Bfin he
  have hle : (List.replicate 65536 (7 : Nat)).length ≤ 65536 := by
    rw [List.length_replicate]
  rw [lzma_code_body_reset_step (concatDecoder fBig)
    { ctxB2 with nextIn := [] } LzmaAction.finish _ hs (by decide) rfl rfl hle]
  rfl

theorem fin_B (n : Nat) :
    gdk_pixbuf_lzma_code (concatDecoder fBig) (n + 1) ctxB2 []
      LzmaAction.finish = some (ctxB3, true) := by
  show lzma_code_loop (concatDecoder fBig) (n + 1)
    { ctxB2 with nextIn := [] } LzmaAction.finish = _
  exact lzma_code_loop_one (concatDecoder fBig) n _ ctxB3 LzmaAction.finish
    LzmaRet.streamEnd body_Bfin (by decide) rfl

theorem pushChunks_cons_of {σ : Type} (d : LzDecoder σ) (fuel : Nat)
    (ctx c1 : XZImageDecodeContext σ) (c : List Nat) (cs : List (List Nat))
    (h : load_xz_image_increment d fuel ctx c = some (c1, true)) :
    pushChunks d fuel ctx (c :: cs) = pushChunks d fuel c1 cs := by
  rw [pushChunks, h]

theorem pushChunks_nil {σ : Type} (d : LzDecoder σ) (fuel : Nat)
    (ctx : XZImageDecodeContext σ) :
    pushChunks d fuel ctx [] = some ctx := by
  rw [pushChunks]

theorem session_accum_eq (f : List Nat → List Nat) (fuel : Nat)
    (chunks : List (List Nat)) (ctx ctx2 : XZImageDecodeContext LzmaDecState)
    (b : Bool)
    (h1 : pushChunks (concatDecoder f) fuel
      (begin_load ⟨[], 0⟩ true true true) chunks = some ctx)
    (h2 : gdk_pixbuf_lzma_code (concatDecoder f) fuel ctx []
      LzmaAction.finish = some (ctx2, b)) :
    session_accum f fuel chunks = some ctx2.memoryIstream := by
  rw [session_accum, h1]
  dsimp only
  rw [h2]

theorem chunksA (n : Nat) :
    pushChunks (concatDecoder fBig) (n + 1) ctx0LD [[0, 1]] = some ctxA1 := by
  rw [pushChunks_cons_of (concatDecoder fBig) (n + 1) ctx0LD ctxA1 [0, 1] []
    (push_A n), pushChunks_nil]

theorem chunksB (n : Nat) :
    pushChunks (concatDecoder fBig) (n + 1) ctx0LD [[0], [1]] =
      some ctxB2 := by
  rw [pushChunks_cons_of (concatDecoder fBig) (n + 1) ctx0LD ctxB1 [0] [[1]]
    (push_B0 n)]
  rw [pushChunks_cons_of (concatDecoder fBig) (n + 1) ctxB1 ctxB2 [1] []
    (push_B1 n), pushChunks_nil]

theorem accum_A : session_accum fBig 8 [[0, 1]] =
    some [List.replicate 65536 7, List.replicate 65536 7] := by
  rw [session_accum_eq fBig 8 [[0, 1]] ctxA1 ctxA2 true (chunksA 7) (fin_A 7)]
  rfl

theorem accum_B : session_accum fBig 8 [[0], [1]] =
    some [List.replicate 2 7, List.replicate 65536 7,
      List.replicate 65536 7] := by
  rw [session_accum_eq fBig 8 [[0], [1]] ctxB2 ctxB3 true (chunksB 7)
    (fin_B 7)]
  rfl

theorem lenA : ([List.replicate 65536 (7 : Nat),
    List.replicate 65536 7].flatten).length = 131072 := by
  rw [List.flatten_cons, List.flatten_cons, List.flatten_nil,
    List.append_nil, List.length_append, List.length_replicate]

theorem lenB : ([List.replicate 2 (7 : Nat), List.replicate 65536 7,
    List.replicate 65536 7].flatten).length = 131074 := by
  rw [List.flatten_cons, List.flatten_cons, List.flatten_cons,
    List.flatten_nil, List.append_nil, List.length_append,
    List.length_append, List.length_replicate]
  norm_num

/-- C1: the claim states that feeding the same compressed stream split
at different chunk boundaries produces identical accumulated output.
The code violates this: stop_load performs exactly one LZMA_FINISH
iteration (its do-while loops on avail_in, which is 0), so it drains
at most one 64 KiB scratch buffer of output still pending inside the
decoder. Under the fBig decoder model, the splits [[0, 1]] and
[[0], [1]] of the same two-byte stream accumulate 131072 and 131074
bytes respectively: the single-chunk split loses the last two
plaintext bytes, and the accumulated byte sequences differ. -/
theorem C1_chunking_dependence :
    List.flatten [[0, 1]] = List.flatten [[0], [1]] ∧
    (session_accum fBig 8 [[0, 1]]).map
      (fun segs => segs.flatten.length) = some 131072 ∧
    (session_accum fBig 8 [[0], [1]]).map
      (fun segs => segs.flatten.length) = some 131074 ∧
    (session_accum fBig 8 [[0, 1]]).map List.flatten ≠
      (session_accum fBig 8 [[0], [1]]).map List.flatten := by
  refine ⟨by decide, ?_, ?_, ?_⟩
  · rw [accum_A]
    exact congrArg some lenA
  · rw [accum_B]
    exact congrArg some lenB
  · intro h
    rw [accum_A, accum_B] at h
    simp only [Option.map_some'] at h
    have h2 := congrArg List.length (Option.some.inj h)
    rw [lenA, lenB] at h2
    exact absurd h2 (by norm_num)

/-- Characterization of stop_load given the result of its final
LZMA_FINISH flush: the gboolean result, the fixed event sequence, and
the callback invocations that depend on the image-decode outcome. -/
theorem stop_load_of_flush {σ : Type} (d : LzDecoder σ)
    (pix : List (List Nat) → Option Pixbuf) (fuel : Nat)
    (ctx ctxf : XZImageDecodeContext σ) (b : Bool)
    (hf : gdk_pixbuf_lzma_code d fuel ctx [] LzmaAction.finish =
      some (ctxf, b)) :
    stop_load d pix fuel ctx =
      some ((match pix ctxf.memoryIstream with
              | none => false
              | some _ => b),
        [Event.lzmaEnd, Event.newFromStream, Event.closeIstream] ++
        (match pix ctxf.memoryIstream with
         | some pb =>
           (if ctxf.prepare_func then [Event.prepared pb.width pb.height]
            else []) ++
           (if ctxf.updated_func then [Event.updated 0 0 pb.width pb.height]
            else [])
         | none => []) ++
        [Event.unrefPixbuf, Event.freeLzstream, Event.freeUnxzBuffer,
         Event.freeContext]) := by
  rw [stop_load, hf]

/-- C2 counterexample: stop_load on a session is never a side-effect
free no-op: already the first call performs the teardown side effects,
including freeing the session object itself (Event.freeContext), so a
second stop_load call on the same session cannot be a no-op returning
the same outcome with no side effects: it would repeat these frees on
the already-freed session (a double free). The code tracks no terminal
state at all. -/
theorem C2_counterexample :
    stop_load dErrU pixNone 2 ctx0U = some (false, evC2) ∧
    evC2 ≠ [] ∧ Event.freeContext ∈ evC2 := by decide

/-- C2 amended: stop_load is single-shot rather than idempotent: every
call, whatever its outcome, unconditionally releases the decoder
(lzma_end), the lzma_stream struct, the scratch buffer and the session
object itself, so finish must not be called a second time. -/
theorem C2_finish_teardown {σ : Type} (d : LzDecoder σ)
    (pix : List (List Nat) → Option Pixbuf) (fuel : Nat)
    (ctx : XZImageDecodeContext σ) (r : Bool) (ev : List Event)
    (h : stop_load d pix fuel ctx = some (r, ev)) :
    Event.lzmaEnd ∈ ev ∧ Event.freeLzstream ∈ ev ∧
    Event.freeUnxzBuffer ∈ ev ∧ Event.freeContext ∈ ev := by
  rcases hf : gdk_pixbuf_lzma_code d fuel ctx [] LzmaAction.finish with _ | p
  · rw [stop_load, hf] at h
    simp at h
  · rcases p with ⟨ctxf, b⟩
    rw [stop_load_of_flush d pix fuel ctx ctxf b hf] at h
    simp only [Option.some.injEq, Prod.mk.injEq] at h
    obtain ⟨_, hev⟩ := h
    subst hev
    refine ⟨by simp, by simp, by simp, by simp⟩

/-- Witness for the amended C2 at a concrete session. -/
theorem C2_finish_teardown_witness :
    Event.lzmaEnd ∈ evC2 ∧ Event.freeLzstream ∈ evC2 ∧
    Event.freeUnxzBuffer ∈ evC2 ∧ Event.freeContext ∈ evC2 :=
  C2_finish_teardown dErrU pixNone 2 ctx0U false evC2 (by decide)

/-- C6 counterexample: when the final decompression flush fails but
the accumulated partial bytes happen to decode to an image, stop_load
still attempts the external image decode (Event.newFromStream) and
fires both the prepared and the updated callback on the partial-data
image while returning failure - contradicting the claim that after a
decompression error the session does not attempt the image decode and
that callbacks never fire on a partial outcome. -/
theorem C6_counterexample :
    stop_load dErrU pix32 2 ctx0U = some (false, evC6) ∧
    Event.newFromStream ∈ evC6 ∧ Event.prepared 3 2 ∈ evC6 ∧
    Event.updated 0 0 3 2 ∈ evC6 := by decide

/-- C6 amended: when the final flush reports a decompression error,
stop_load still proceeds to attempt the external image decode on the
partial accumulated bytes and returns failure; if that decode
succeeds, the callbacks fire anyway (see the counterexample). No
session state records the failure; the only terminal effect is the
teardown. -/
theorem C6_failed_flush_still_decodes {σ : Type} (d : LzDecoder σ)
    (pix : List (List Nat) → Option Pixbuf) (fuel : Nat)
    (ctx ctxf : XZImageDecodeContext σ)
    (hf : gdk_pixbuf_lzma_code d fuel ctx [] LzmaAction.finish =
      some (ctxf, false)) :
    ∃ ev : List Event, stop_load d pix fuel ctx = some (false, ev) ∧
      Event.newFromStream ∈ ev := by
  have hs := stop_load_of_flush d pix fuel ctx ctxf false hf
  rcases hp : pix ctxf.memoryIstream with _ | pb
  · rw [hp] at hs
    exact ⟨_, hs, by simp⟩
  · rw [hp] at hs
    exact ⟨_, hs, by simp⟩

/-- Witness for the amended C6 at a concrete session. -/
theorem C6_failed_flush_still_decodes_witness :
    ∃ ev : List Event, stop_load dErrU pix32 2 ctx0U = some (false, ev) ∧
      Event.newFromStream ∈ ev :=
  C6_failed_flush_still_decodes dErrU pix32 2 ctx0U ctx0U (by decide)

/-- C7: on a finish whose image decode succeeds and whose prepared and
updated callbacks are provided, stop_load invokes the prepared
callback exactly once and then the updated callback exactly once, with
x = 0, y = 0 and width/height equal to the full decoded image bounds,
as the complete event sequence shows; no other operation of the
session invokes any callback, and the session is freed afterwards, so
updated can never fire a second time for the session. -/
theorem C7_callbacks_once_full_bounds {σ : Type} (d : LzDecoder σ)
    (pix : List (List Nat) → Option Pixbuf) (fuel : Nat)
    (ctx ctxf : XZImageDecodeContext σ) (b : Bool) (pb : Pixbuf)
    (hf : gdk_pixbuf_lzma_code d fuel ctx [] LzmaAction.finish =
      some (ctxf, b))
    (hp : pix ctxf.memoryIstream = some pb)
    (h1 : ctxf.prepare_func = true) (h2 : ctxf.updated_func = true) :
    stop_load d pix fuel ctx = some (b,
      [Event.lzmaEnd, Event.newFromStream, Event.closeIstream,
       Event.prepared pb.width pb.height,
       Event.updated 0 0 pb.width pb.height, Event.unrefPixbuf,
       Event.freeLzstream, Event.freeUnxzBuffer, Event.freeContext]) := by
  rw [stop_load_of_flush d pix fuel ctx ctxf b hf, hp]
  simp [h1, h2]

/-- Witness for C7 at a concrete successful session. -/
theorem C7_callbacks_once_full_bounds_witness :
    stop_load (concatDecoder fZero) pix43 2 ctx0LD =
      some (true,
        [Event.lzmaEnd, Event.newFromStream, Event.closeIstream,
         Event.prepared 4 3, Event.updated 0 0 4 3, Event.unrefPixbuf,
         Event.freeLzstream, Event.freeUnxzBuffer, Event.freeContext]) :=
  C7_callbacks_once_full_bounds (concatDecoder fZero) pix43 2 ctx0LD
    ctxFinZ true ⟨4, 3⟩ (by decide) rfl rfl rfl

/-- C8: the size callback stored by begin_load is never invoked: no
event of any stop_load call is Event.sizeKnown (begin_load and
load_increment perform no callback invocations at all in the code),
and when the image decode produces no image, no callback event occurs
whatsoever - prepared/updated fire only after the full decode
succeeded. -/
theorem C8_size_func_never_invoked {σ : Type} (d : LzDecoder σ)
    (pix : List (List Nat) → Option Pixbuf) (fuel : Nat)
    (ctx ctxf : XZImageDecodeContext σ) (b0 r : Bool) (ev : List Event)
    (hf : gdk_pixbuf_lzma_code d fuel ctx [] LzmaAction.finish =
      some (ctxf, b0))
    (h : stop_load d pix fuel ctx = some (r, ev)) :
    Event.sizeKnown ∉ ev ∧
    (pix ctxf.memoryIstream = none → ev.filter isCallbackEvent = []) := by
  rw [stop_load_of_flush d pix fuel ctx ctxf b0 hf] at h
  simp only [Option.some.injEq, Prod.mk.injEq] at h
  obtain ⟨_, hev⟩ := h
  subst hev
  constructor
  · rcases hp : pix ctxf.memoryIstream with _ | pb
    · simp
    · cases hpf : ctxf.prepare_func <;> cases huf : ctxf.updated_func <;>
        simp [hpf, huf]
  · intro hnone
    rw [hnone]
    simp [isCallbackEvent]

/-- Witness for C8 at a concrete session. -/
theorem C8_size_func_never_invoked_witness :
    Event.sizeKnown ∉ evC2 ∧
    (pixNone ctx0U.memoryIstream = none →
      evC2.filter isCallbackEvent = []) :=
  C8_size_func_never_invoked dErrU pixNone 2 ctx0U ctx0U false false evC2
    (by decide) (by decide)

/-- C3 counterexample: under a decoder behavior that signals
LZMA_STREAM_END during a pushChunk call (as liblzma does when used
without LZMA_CONCATENATED - the branch the code explicitly handles),
the triggering call drains and appends the residual and returns
success, but the session does not transition to any terminal state: a
second pushChunk is still processed and appends another segment,
contradicting the claim that no further input is accepted. -/
theorem C3_counterexample :
    load_xz_image_increment dSE 2 ctx0N [1] = some (ctxSE1, true) ∧
    load_xz_image_increment dSE 2 ctxSE1 [2] = some (ctxSE2, true) ∧
    ctxSE2.memoryIstream = [[9], [8]] := by decide

/-- C3 amended: when the decoder reports LZMA_STREAM_END during a
pushChunk call and consumes the chunk, the call drains the residual
bytes into a segment, appends it to the memory stream and returns
success; the resulting context carries no terminal marker - the code
has no Completed state - so subsequent pushChunk calls are processed
normally (see the counterexample). -/
theorem C3_streamEnd_drains_appends {σ : Type} (d : LzDecoder σ)
    (fuel : Nat) (ctx : XZImageDecodeContext σ) (buf : List Nat)
    (r : StepResult σ)
    (hs : d.step ctx.decState LzmaAction.run buf ctx.availOut = r)
    (hret : r.ret = LzmaRet.streamEnd) (hin : r.nextIn = [])
    (hA : ctx.availOut = ctx.xz_buffer_size) (hW : ctx.outWritten = [])
    (hle : r.written.length ≤ ctx.xz_buffer_size) :
    load_xz_image_increment d (fuel + 1) ctx buf =
      some ({ ctx with
        decState := r.decState
        nextIn := []
        availOut := ctx.xz_buffer_size
        outWritten := []
        memoryIstream := ctx.memoryIstream ++
          [ctx.outWritten ++ r.written] }, true) := by
  have hs2 : d.step ({ ctx with nextIn := buf }).decState LzmaAction.run
      ({ ctx with nextIn := buf }).nextIn
      ({ ctx with nextIn := buf }).availOut = r := hs
  have hb := lzma_code_body_reset_step d { ctx with nextIn := buf }
    LzmaAction.run r hs2 (by rw [hret]; simp) hA hW hle
  have hl := lzma_code_loop_one d fuel { ctx with nextIn := buf } _
    LzmaAction.run r.ret hb (by rw [hret]; simp) hin
  rw [hin] at hl
  rw [hW, List.nil_append]
  exact hl

/-- Witness for the amended C3 at a concrete stream-end pushChunk. -/
theorem C3_streamEnd_drains_appends_witness :
    load_xz_image_increment dSE 2 ctx0N [1] =
      some ({ ctx0N with
        decState := (⟨1, [], [9], LzmaRet.streamEnd⟩ : StepResult Nat).decState
        nextIn := []
        availOut := ctx0N.xz_buffer_size
        outWritten := []
        memoryIstream := ctx0N.memoryIstream ++
          [ctx0N.outWritten ++
            (⟨1, [], [9], LzmaRet.streamEnd⟩ : StepResult Nat).written] },
        true) :=
  C3_streamEnd_drains_appends dSE 1 ctx0N [1]
    ⟨1, [], [9], LzmaRet.streamEnd⟩ (by decide) rfl rfl rfl rfl (by decide)

/-- C4 counterexample: a pushChunk whose input produces no output
still appends a segment: the incremental drain runs on every LZMA_OK
iteration regardless of the cursor, so with cursor 0 an empty segment
is appended to the memory stream ([[]]), contradicting the claim that
a drain with cursor 0 appends no segment and that no empty segment is
ever appended. -/
theorem C4_counterexample :
    load_xz_image_increment (concatDecoder fZero) 2 ctx0LD [5] =
      some (ctxC10, true) ∧ ctxC10.memoryIstream = [[]] := by decide

/-- C4 amended: every non-error iteration of the incremental decode
loop appends exactly one segment, even when the write cursor is 0, in
which case the appended segment is empty; such an empty append leaves
the concatenated accumulated byte stream unchanged. -/
theorem C4_empty_drain_appends_empty_segment {σ : Type} (d : LzDecoder σ)
    (ctx : XZImageDecodeContext σ) (act : LzmaAction)
    (c1 : XZImageDecodeContext σ) (ret : LzmaRet)
    (hb : lzma_code_body d ctx act = (c1, ret))
    (hret : ret ≠ LzmaRet.err) :
    ∃ seg : List Nat, c1.memoryIstream = ctx.memoryIstream ++ [seg] ∧
      (seg = [] → c1.memoryIstream.flatten = ctx.memoryIstream.flatten) := by
  rw [lzma_code_body_of_step rfl] at hb
  split at hb
  · simp only [Prod.mk.injEq] at hb
    exact absurd hb.2.symm hret
  · simp only [Prod.mk.injEq] at hb
    obtain ⟨h1, _⟩ := hb
    subst h1
    refine ⟨_, rfl, ?_⟩
    intro hseg
    dsimp only
    rw [hseg]
    simp

/-- Witness for the amended C4 at a concrete empty drain. -/
theorem C4_empty_drain_appends_empty_segment_witness :
    ∃ seg : List Nat, ctxC10.memoryIstream =
      ({ ctx0LD with nextIn := [5] }).memoryIstream ++ [seg] ∧
      (seg = [] → ctxC10.memoryIstream.flatten =
        ({ ctx0LD with nextIn := [5] }).memoryIstream.flatten) :=
  C4_empty_drain_appends_empty_segment (concatDecoder fZero)
    { ctx0LD with nextIn := [5] } LzmaAction.run ctxC10 LzmaRet.ok
    (by decide) (by decide)

/-- C9: evaluation of the one-shot driver at a failing input (a
one-byte file on which the decoder reports a decode error after
successful initialisation). The failure exit frees the buffers and the
lzma_stream struct and closes the stream, but the event trace contains
lzmaInitInternal with no matching lzmaEnd - the engine-internal state
allocated by lzma_stream_decoder is never released (the success path
does call lzma_end) - and the memory input stream object is never
unreferenced on any path, so total frees do not equal total
allocations on the failure path. -/
theorem C9_failure_exit_missing_lzma_end :
    gdk_pixbuf_load_xz_image dErrU () pixNone 2 [1] = some (none, evC9) ∧
    Event.lzmaInitInternal ∈ evC9 ∧ Event.lzmaEnd ∉ evC9 ∧
    Event.unrefIstream ∉ evC9 := by decide

/-- C10: whenever _gdk_pixbuf__lzma_code returns TRUE, the entire
input chunk has been consumed (avail_in is 0) and the scratch output
window has been reset to a fresh full-capacity state: the write cursor
is at the start of the buffer and avail_out equals the unchanged
buffer size. Holds for every decoder behavior. -/
theorem C10_success_resets_window {σ : Type} (d : LzDecoder σ) (fuel : Nat)
    (ctx ctx2 : XZImageDecodeContext σ) (buf : List Nat) (act : LzmaAction)
    (h : gdk_pixbuf_lzma_code d fuel ctx buf act = some (ctx2, true)) :
    ctx2.nextIn = [] ∧ ctx2.availOut = ctx2.xz_buffer_size ∧
    ctx2.outWritten = [] ∧ ctx2.xz_buffer_size = ctx.xz_buffer_size := by
  have hs := lzma_code_loop_true_spec d fuel { ctx with nextIn := buf }
    ctx2 act h
  exact ⟨hs.1, hs.2.1, hs.2.2.1, hs.2.2.2.1⟩

/-- Witness for C10 at a concrete successful pushChunk. -/
theorem C10_success_resets_window_witness :
    ctxC10.nextIn = [] ∧ ctxC10.availOut = ctxC10.xz_buffer_size ∧
    ctxC10.outWritten = [] ∧ ctxC10.xz_buffer_size = ctx0LD.xz_buffer_size :=
  C10_success_resets_window (concatDecoder fZero) 2 ctx0LD ctxC10 [5]
    LzmaAction.run (by decide)

/-- C5: in every session state reachable through the module entry
points, the scratch buffer's write cursor never exceeds the fixed
capacity; moreover, for any next decode iteration, the cursor plus the
newly written bytes stay within the capacity, and the drain appends a
segment that is exactly the bytes written since the last reset (the
old cursor contents followed by the new write), of exactly that size,
before resetting the window. -/
theorem C5_scratch_buffer_invariant (f : List Nat → List Nat)
    (ctx : XZImageDecodeContext LzmaDecState) (hR : Reachable f ctx) :
    ctx.outWritten.length ≤ ctx.xz_buffer_size ∧
    ∀ act : LzmaAction, ∃ r : StepResult LzmaDecState,
      (concatDecoder f).step ctx.decState act ctx.nextIn ctx.availOut = r ∧
      ctx.outWritten.length + r.written.length ≤ ctx.xz_buffer_size ∧
      lzma_code_body (concatDecoder f) ctx act =
        ({ ctx with
            decState := r.decState
            nextIn := r.nextIn
            availOut := ctx.xz_buffer_size
            outWritten := []
            memoryIstream := ctx.memoryIstream ++
              [ctx.outWritten ++ r.written] }, r.ret) := by
  obtain ⟨hA, hW, hB⟩ := reachable_spec hR
  have hwr : ∀ act : LzmaAction,
      ((concatDecoder f).step ctx.decState act ctx.nextIn
        ctx.availOut).written =
      (lzRun f ctx.decState ctx.nextIn ctx.availOut).written := by
    intro act
    show (concatStep f ctx.decState act ctx.nextIn ctx.availOut).written = _
    simp only [concatStep]
  have hwl := lzRun_written_le f ctx.nextIn ctx.decState ctx.availOut
  constructor
  · rw [hW]
    exact Nat.zero_le _
  · intro act
    refine ⟨(concatDecoder f).step ctx.decState act ctx.nextIn ctx.availOut,
      rfl, ?_, ?_⟩
    · rw [hW, hwr act, List.length_nil]
      omega
    · have hret := concatStep_ret_ne_err f ctx.decState act ctx.nextIn
        ctx.availOut
      have hle : ((concatDecoder f).step ctx.decState act ctx.nextIn
          ctx.availOut).written.length ≤ ctx.xz_buffer_size := by
        rw [hwr act]
        omega
      have hb := lzma_code_body_reset_step (concatDecoder f) ctx act _ rfl
        hret hA hW hle
      rw [hb, hW, List.nil_append]

/-- Witness for C5 at the freshly begun session. -/
theorem C5_scratch_buffer_invariant_witness :
    ctx0LD.outWritten.length ≤ ctx0LD.xz_buffer_size :=
  (C5_scratch_buffer_invariant fZero ctx0LD
    (Reachable.start true true true)).1
